import Mathlib

/-!
Shallow embedding of the caching/authorization layers of the Strava client
(`querying.py` and `authorization.py`), together with proofs of the spec
claims about them.

Modelling conventions:
* Instants are seconds since the Unix epoch, as `Nat` (the code manipulates
  `datetime` values derived from POSIX timestamps).
* Python dicts are association lists `List (String × PV)`; lookups use the
  first binding, which matches dict behaviour when keys are unique.
* JSON values are the inductive `J`; a response body that fails to parse as
  JSON is `none`.
* Fallible Python code (exceptions) is modelled with `Except Err`.
* The unbounded pagination / 429-retry loops take explicit fuel; running out
  of fuel yields the artificial error `Err.fuelExhausted`.
* The float constant `MAX_RATE_LIMIT_USAGE = 0.8` is modelled by the exact
  rational `4/5`; the comparison `count >= limit * 0.8` is embedded as the
  equivalent integer comparison `5 * count ≥ 4 * limit`.
-/

namespace Strava

/-- JSON values (`json` module values in the Python code). -/
inductive J where
  | null
  | bool (b : Bool)
  | num (n : Int)
  | str (s : String)
  | arr (xs : List J)
  | obj (fields : List (String × J))
deriving Repr

/-- Values of query parameters as passed by callers (`params` dict values).
The demos pass integers and strings; rendering matches Python f-strings. -/
inductive PV where
  | num (n : Int)
  | str (s : String)
deriving Repr, DecidableEq

/-- A Python dict, as an association list in insertion order. -/
abbrev Dict := List (String × PV)

/-- Python `f"{v}"` on a parameter value. -/
def PV.render : PV → String
  | .num n => toString n
  | .str s => s

/-- `d1 | d2` on dicts: keys of `d1` keep their position but take `d2`'s
value when present; new keys of `d2` are appended. -/
def dictUnion (d1 d2 : Dict) : Dict :=
  (d1.map fun kv => (kv.1, ((d2.lookup kv.1).getD kv.2)))
    ++ d2.filter fun kv => ((d1.lookup kv.1)).isNone

/-- Errors: Python exceptions reaching the caller.  `fuelExhausted` and
`noResponse` are modelling artifacts (unbounded recursion, exhausted
response oracle). -/
inductive Err where
  | httpError (status : Nat)
  | parseError
  | fileNotFound
  | typeError
  | valueError
  | invalidPath
  | assertionFailed
  | noResponse
  | fuelExhausted
deriving Repr, DecidableEq

/-- An HTTP response as seen through the `requests` interface used by
`caching_get`: a status code and a body that may or may not parse as JSON. -/
structure HttpResponse where
  status : Nat
  body : Option J

/-- `response.raise_for_status()`: raises `HTTPError` for 4xx/5xx codes. -/
def raise_for_status (r : HttpResponse) : Except Err Unit :=
  if 400 ≤ r.status ∧ r.status < 600 then .error (.httpError r.status) else .ok ()

/-! ## Cache entries (`querying.py`)

One cache directory holds up to two files: the creation-time file (a text
file that must parse as a number via `float(...)`) and the content file
(which must parse as JSON via `json.load`). -/

/-- Contents of the creation-time file: a numeric timestamp, or text that
`float(...)` rejects. `none` at the `CacheEntry` level means the file is
absent. -/
inductive CreationFile where
  | num (t : Nat)
  | malformed
deriving Repr, DecidableEq

/-- Contents of the content file: a JSON document, or text `json.load`
rejects. -/
inductive ContentFile where
  | json (j : J)
  | malformed
deriving Repr

/-- The on-disk cache entry at one computed key (both files optional). -/
structure CacheEntry where
  creation : Option CreationFile
  content : Option ContentFile
deriving Repr

/-- `CACHE_EXPIRATION_TIME = datetime.timedelta(days=7)`, in seconds. -/
def CACHE_EXPIRATION_TIME : Nat := 7 * 24 * 60 * 60

/-- `RESPONSES_PER_PAGE = 200`. -/
def RESPONSES_PER_PAGE : Int := 200

/-- Reading and parsing the creation-time file:
`float(creation_time_path.read_text())` (raises `ValueError` on
non-numeric text), `None` when the file is absent. -/
def readCreation : Option CreationFile → Except Err (Option Nat)
  | none => .ok none
  | some (.num t) => .ok (some t)
  | some .malformed => .error .parseError

/-- The per-page params dict built in the pagination loop:
`({} if params is None else params) | {"page": page, "per_page": RESPONSES_PER_PAGE}`. -/
def pageDict (params : Option Dict) (page : Nat) : Dict :=
  dictUnion (params.getD []) [("page", .num (page : Int)), ("per_page", .num RESPONSES_PER_PAGE)]

/-- Interpreting a JSON body as a sequence, as the pagination loop's
`len(response_json)` / `result += response_json` requires. -/
def J.asArr : J → Option (List J)
  | .arr xs => some xs
  | _ => none

/-- The pagination loop of `caching_get`: request pages with increasing
`page` until a page comes back empty, accumulating the pages in order and
logging the params of every request issued.  `fuel` bounds the (otherwise
unbounded) loop. -/
def fetchPages (getter : Option Dict → HttpResponse) (params : Option Dict) :
    Nat → Nat → List J → List (Option Dict) → Except Err (List J) × List (Option Dict)
  | 0, _, _, log => (.error .fuelExhausted, log)
  | fuel + 1, page, acc, log =>
    let pp := pageDict params page
    let resp := getter (some pp)
    let log := log ++ [some pp]
    match raise_for_status resp with
    | .error e => (.error e, log)
    | .ok () =>
      match resp.body with
      | none => (.error .parseError, log)
      | some j =>
        match j.asArr with
        | none => (.error .typeError, log)
        | some xs =>
          if xs.isEmpty then (.ok acc, log)
          else fetchPages getter params fuel (page + 1) (acc ++ xs) log

/-- Result of one `caching_get` call: the returned value or raised error,
the final state of the cache entry at the computed key, and the params of
every network request issued (in order). -/
structure GetOutcome where
  result : Except Err J
  entry : CacheEntry
  calls : List (Option Dict)

/-- `caching_get` from `querying.py`, acting on the cache entry at the
computed key.  Mirrors the source: compute `cache_hit`, read/parse the
creation-time file unconditionally when present, compute `needs_refresh`,
serve the content file on a fresh hit, otherwise fetch (paginated or
single) and overwrite both files only after the whole fetch succeeded. -/
def caching_get (getter : Option Dict → HttpResponse) (params : Option Dict)
    (force_refresh : Bool) (pagination : Bool) (entry : CacheEntry) (now : Nat)
    (fuel : Nat) : GetOutcome :=
  let cache_hit := entry.creation.isSome && entry.content.isSome && !force_refresh
  match readCreation entry.creation with
  | .error e => ⟨.error e, entry, []⟩
  | .ok creation_time =>
    let needs_refresh :=
      match creation_time with
      | some t => decide (t + CACHE_EXPIRATION_TIME < now)
      | none => false
    if cache_hit && !needs_refresh then
      match entry.content with
      | some (.json j) => ⟨.ok j, entry, []⟩
      | some .malformed => ⟨.error .parseError, entry, []⟩
      | none => ⟨.error .fileNotFound, entry, []⟩
    else
      let fetched : Except Err J × List (Option Dict) :=
        if pagination then
          match fetchPages getter params fuel 1 [] [] with
          | (.ok xs, log) => (.ok (.arr xs), log)
          | (.error e, log) => (.error e, log)
        else
          let r := getter params
          match raise_for_status r with
          | .error e => (.error e, [params])
          | .ok () =>
            match r.body with
            | none => (.error .parseError, [params])
            | some j => (.ok j, [params])
      match fetched with
      | (.error e, log) => ⟨.error e, entry, log⟩
      | (.ok j, log) =>
        ⟨.ok j, ⟨some (.num now), some (.json j)⟩, log⟩

/-! ## Cache key computation (`querying.py`, lines 59-67)

`sorted(params)` sorts the keys as Python strings, i.e. lexicographically by
Unicode code point; `lexLe` is that order, made executable. -/

/-- Lexicographic comparison of strings by code point (Python `<=` on str). -/
def lexLe : List Char → List Char → Bool
  | [], _ => true
  | _ :: _, [] => false
  | a :: as, b :: bs =>
    if a.toNat < b.toNat then true
    else if b.toNat < a.toNat then false
    else lexLe as bs

/-- The string order used by `sorted(params)`. -/
def strle (a b : String) : Prop := lexLe a.data b.data = true

instance : DecidableRel strle := fun a b => by
  unfold strle
  infer_instance

/-- `",".flatten(f"{key}={params[key]}" for key in sorted(params))`;
the empty string when `params is None`. -/
def params_string (params : Option Dict) : String :=
  match params with
  | none => ""
  | some d =>
    String.intercalate ","
      ((List.insertionSort strle (d.map Prod.fst)).map
        fun k => k ++ "=" ++ ((d.lookup k).getD (.str "")).render)

/-- `lstrip('/')` on a path. -/
def lstripSlash (s : String) : String :=
  ⟨s.data.dropWhile (· = '/')⟩

/-- The host and path components extracted from the URL by `urlparse`. -/
structure Url where
  netloc : String
  path : String

/-- The cache directory for a query:
`cache_folder / parsed_url.netloc / parsed_url.path.lstrip('/') / params_string`. -/
def cacheKey (cache_folder : String) (url : Url) (params : Option Dict) : String :=
  String.intercalate "/" [cache_folder, url.netloc, lstripSlash url.path, params_string params]

/-! ## Path validation (`querying.py`, lines 154-204)

`path_spec.format_map(FormatSpecToRegex())` replaces every `{placeholder}`
field with the regex fragment matching any run of non-`/` characters; the
result is matched against the whole query path with `re.fullmatch`.  The
pattern is embedded as a token list: one token per literal character, plus
a wildcard token per placeholder. -/

/-- One token of a compiled path pattern. -/
inductive Tok where
  | ch (c : Char)
  | hole
deriving Repr, DecidableEq

/-- One pass over the spec string: outside a `{...}` field every character
is a literal token and `{` opens a field emitting a wildcard; inside a
field, characters are skipped until the closing `}`. -/
def parseSpecAux : Bool → List Char → List Tok
  | _, [] => []
  | false, '{' :: rest => .hole :: parseSpecAux true rest
  | false, c :: rest => .ch c :: parseSpecAux false rest
  | true, '}' :: rest => parseSpecAux false rest
  | true, _ :: rest => parseSpecAux true rest

/-- Compile a path spec: each `{...}` field becomes a wildcard, every other
character is a literal (the real path specs contain no regex
metacharacters). -/
def parseSpec (cs : List Char) : List Tok :=
  parseSpecAux false cs

/-- The suffixes a wildcard `[^/]*` can leave behind: the whole input, then
each suffix reached by consuming one more non-`/` character. -/
def holeSuffixes (cs : List Char) : List (List Char) :=
  cs ::
    match cs with
    | [] => []
    | x :: xs => if x == '/' then [] else holeSuffixes xs

/-- Matching a compiled pattern against a path.  A wildcard consumes any
(possibly empty) run of non-`/` characters — exactly the language of the
regex fragment `[^/]*` it replaces, with `re.fullmatch` backtracking
rendered as a search over `holeSuffixes`. -/
def matchToks : List Tok → List Char → Bool
  | [], cs => cs.isEmpty
  | .ch c :: ts, cs =>
    match cs with
    | [] => false
    | x :: xs => c == x && matchToks ts xs
  | .hole :: ts, cs => (holeSuffixes cs).any fun suf => matchToks ts suf

/-- `path_matches(path_spec, query_path)` from `querying.py`. -/
def path_matches (path_spec query_path : String) : Bool :=
  matchToks (parseSpec path_spec.data) query_path.data

/-- The schema catalog: `all_paths`, a mapping from path pattern to
`PathData(paginated=...)`, in iteration order. -/
abbrev Catalog := List (String × Bool)

/-- `QueryDatabase.__get_data_for_path`: the first pattern matching the
query path wins; no match raises `ValueError` (the spec's
`InvalidPathError`). -/
def get_data_for_path (catalog : Catalog) (query_path : String) : Except Err Bool :=
  match catalog.find? (fun entry => path_matches entry.1 query_path) with
  | some entry => .ok entry.2
  | none => .error .invalidPath

/-- `QueryDatabase.query`: validate the path against the catalog, then
delegate to `caching_get` with the pagination flag of the matched pattern. -/
def query (catalog : Catalog) (getter : Option Dict → HttpResponse)
    (path : String) (params : Option Dict) (force_refresh : Bool)
    (entry : CacheEntry) (now : Nat) (fuel : Nat) : GetOutcome :=
  match get_data_for_path catalog path with
  | .error e => ⟨.error e, entry, []⟩
  | .ok paginated => caching_get getter params force_refresh paginated entry now fuel

/-! ## Rate-limit tracking (`authorization.py`, `RateLimitTracking`)

The class keeps all four counters and the observation time `None` until the
first `update` with rate-limit headers, and `update` always sets all five
together; the state is therefore an `Option Snapshot`. -/

/-- `SHORT_RATE_LIMIT_PERIOD_MINUTES = 15`, as seconds. -/
def SHORT_RATE_LIMIT_PERIOD_SECONDS : Nat := 15 * 60

/-- Seconds in a UTC day. -/
def SECONDS_PER_DAY : Nat := 24 * 60 * 60

/-- `MAX_RATE_LIMIT_USAGE = 0.8`, modelled as the exact rational `4/5`. -/
def MAX_RATE_LIMIT_USAGE : ℚ := 4 / 5

/-- One recorded rate-limit observation: `last_rate_limit_update` plus the
four counters parsed from the usage/limit headers. -/
structure Snapshot where
  observed_at : Nat
  short_count : Nat
  daily_count : Nat
  short_limit : Nat
  daily_limit : Nat
deriving Repr, DecidableEq

namespace RateLimitTracking

/-- The mutable state of a `RateLimitTracking` object. -/
def State := Option Snapshot

/-- `update(headers)`: if either rate-limit header is absent the state is
untouched; otherwise all four counters and the observation time are
replaced.  Headers are modelled post-parsing as the two comma-separated
pairs `(short_usage, daily_usage)` and `(short_limit, daily_limit)`. -/
def update (s : State) (headers : Option ((Nat × Nat) × (Nat × Nat))) (now : Nat) : State :=
  match headers with
  | none => s
  | some ((su, du), (sl, dl)) => some ⟨now, su, du, sl, dl⟩

/-- `__daily_refresh_time`: midnight UTC of the observation day, plus one
day (`datetime.fromtimestamp(0)` when no update was ever recorded). -/
def daily_refresh_time (s : State) : Nat :=
  match s with
  | none => 0
  | some snap => snap.observed_at / SECONDS_PER_DAY * SECONDS_PER_DAY + SECONDS_PER_DAY

/-- `__short_refresh_time`: the observation time rounded down to the
15-minute boundary, plus 15 minutes. -/
def short_refresh_time (s : State) : Nat :=
  match s with
  | none => 0
  | some snap =>
    snap.observed_at / SHORT_RATE_LIMIT_PERIOD_SECONDS * SHORT_RATE_LIMIT_PERIOD_SECONDS
      + SHORT_RATE_LIMIT_PERIOD_SECONDS

/-- `__is_limited(count, nominal_limit, refresh_time, leave_buffer)` for a
recorded snapshot.  `count >= nominal_limit * (0.8 if leave_buffer else 1.0)`
is the exact rational comparison, embedded over the integers
(`count ≥ limit * 4/5  ↔  5*count ≥ 4*limit`), conjoined with
`datetime.now() < refresh_time`. -/
def is_limited_window (count nominal_limit : Nat) (refresh_time : Nat)
    (leave_buffer : Bool) (now : Nat) : Bool :=
  (if leave_buffer then decide (5 * count ≥ 4 * nominal_limit)
   else decide (count ≥ nominal_limit))
    && decide (now < refresh_time)

/-- `is_limited(leave_buffer)`: short-window check or daily check; always
false before the first recorded snapshot. -/
def is_limited (s : State) (leave_buffer : Bool) (now : Nat) : Bool :=
  match s with
  | none => false
  | some snap =>
    is_limited_window snap.short_count snap.short_limit (short_refresh_time s)
        leave_buffer now
      || is_limited_window snap.daily_count snap.daily_limit (daily_refresh_time s)
        leave_buffer now

/-- Helper mirroring `__is_short_limited`. -/
def is_short_limited (s : State) (leave_buffer : Bool) (now : Nat) : Bool :=
  match s with
  | none => false
  | some snap =>
    is_limited_window snap.short_count snap.short_limit (short_refresh_time s)
      leave_buffer now

/-- Helper mirroring `__is_daily_limited`. -/
def is_daily_limited (s : State) (leave_buffer : Bool) (now : Nat) : Bool :=
  match s with
  | none => false
  | some snap =>
    is_limited_window snap.daily_count snap.daily_limit (daily_refresh_time s)
      leave_buffer now

/-- `next_unlimited_time(leave_buffer)`. -/
def next_unlimited_time (s : State) (leave_buffer : Bool) (now : Nat) : Nat :=
  if is_daily_limited s leave_buffer now then daily_refresh_time s
  else if is_short_limited s leave_buffer now then short_refresh_time s
  else 0

/-- `sleep_until_unlimited(leave_buffer)`: its only observable effect on the
model is the passage of time until the computed target. -/
def sleep_until_unlimited (s : State) (leave_buffer : Bool) (now : Nat) : Nat :=
  if is_limited s leave_buffer now then next_unlimited_time s leave_buffer now
  else now

end RateLimitTracking

/-! ## Credential handling (`authorization.py`, `ApiAccess`) -/

/-- The token fields of an `ApiAccess` object (`refresh_token`,
`access_token`, `expiration_time`), as loaded from `EPHEMERAL_SECRETS`. -/
structure Creds where
  refresh_token : String
  access_token : Option String
  expiration_time : Nat
deriving Repr, DecidableEq

/-- A well-formed token-endpoint response body: `expires_at`,
`access_token`, `refresh_token`. -/
structure TokenBody where
  expires_at : Nat
  access_token : String
  refresh_token : String
deriving Repr, DecidableEq

/-- A token-endpoint response; `body = none` models a body that is not JSON
or is missing one of the three required fields. -/
structure TokenResp where
  status : Nat
  body : Option TokenBody
deriving Repr, DecidableEq

/-- The full contents written to `EPHEMERAL_SECRETS` by
`__handle_token_response` (always all three fields). -/
structure SecretsFile where
  refresh_token : String
  access_token : String
  expiration_time : Nat
deriving Repr, DecidableEq

/-- Outcome of the interactive browser authorization flow: the redirect's
query parameters carried a `code`, or an `error`. -/
inductive OauthResult where
  | ok (code : String)
  | err
deriving Repr, DecidableEq

/-- An API response as consumed by `make_request`: status, optional
rate-limit headers (post-parsing, as in `RateLimitTracking.update`), body. -/
structure ApiResponse where
  status : Nat
  headers : Option ((Nat × Nat) × (Nat × Nat))
  body : Option J

/-- The state threaded through `ApiAccess` operations: the in-memory
credentials, the persisted secrets file, the rate-limit tracker, the clock,
and oracles for the external collaborators (token endpoint, API endpoint,
browser flow).  `exchangeCount` counts POSTs to the token endpoint and
`oauthCount` counts browser authorization flows. -/
structure ApiState where
  creds : Creds
  file : Option SecretsFile
  rate : RateLimitTracking.State
  now : Nat
  tokenResps : List TokenResp
  apiResps : List ApiResponse
  oauthFlows : List OauthResult
  exchangeCount : Nat
  oauthCount : Nat

/-- `__handle_token_response`: `raise_for_status()`, parse the three fields,
update the in-memory tokens, and rewrite `EPHEMERAL_SECRETS` with the full
credential set (even when the token values did not change). -/
def handle_token_response (s : ApiState) (r : TokenResp) : Except Err Unit × ApiState :=
  if 400 ≤ r.status ∧ r.status < 600 then (.error (.httpError r.status), s)
  else
    match r.body with
    | none => (.error .parseError, s)
    | some b =>
      (.ok (),
        { s with
          creds := ⟨b.refresh_token, some b.access_token, b.expires_at⟩,
          file := some ⟨b.refresh_token, b.access_token, b.expires_at⟩ })

/-- `__refresh_credentials`: when the stored expiration is in the past
(including the unset sentinel 0), POST a `grant_type=refresh_token` exchange
and process the response; afterwards `assert self.access_token is not None`. -/
def refresh_credentials (s : ApiState) : Except Err Unit × ApiState :=
  let afterExchange : Except Err Unit × ApiState :=
    if s.creds.expiration_time < s.now then
      match s.tokenResps with
      | [] => (.error .noResponse, s)
      | r :: rest =>
        handle_token_response
          { s with tokenResps := rest, exchangeCount := s.exchangeCount + 1 } r
    else (.ok (), s)
  match afterExchange with
  | (.error e, s) => (.error e, s)
  | (.ok (), s) =>
    if s.creds.access_token.isSome then (.ok (), s) else (.error .assertionFailed, s)

/-- `__attempt_oauth`: run the browser flow; a reported `error` raises
`ValueError`, otherwise the received code is exchanged at the token endpoint
via `__handle_token_response`. -/
def attempt_oauth (s : ApiState) : Except Err Unit × ApiState :=
  match s.oauthFlows with
  | [] => (.error .noResponse, s)
  | flow :: rest =>
    let s := { s with oauthFlows := rest, oauthCount := s.oauthCount + 1 }
    match flow with
    | .err => (.error .valueError, s)
    | .ok _code =>
      match s.tokenResps with
      | [] => (.error .noResponse, s)
      | r :: trest =>
        handle_token_response
          { s with tokenResps := trest, exchangeCount := s.exchangeCount + 1 } r

/-- The optional backoff sleep at the top of `make_request`
(`if rate_limit_autobackoff: self.rate_limiting.sleep_until_unlimited(...)`):
only the clock moves. -/
def backoff (rate_limit_buffer rate_limit_autobackoff : Bool) (s : ApiState) : ApiState :=
  if rate_limit_autobackoff then
    { s with now := RateLimitTracking.sleep_until_unlimited s.rate rate_limit_buffer s.now }
  else s

/-- `ApiAccess.make_request`: optional backoff sleep, credential refresh,
the HTTP call, unconditional rate-limit header recording, then the status
dispatch — 401 with `attempt_auth` runs the scope-expansion flow and retries
once with `attempt_auth=False`; 429 with `rate_limit_autobackoff` retries
with unchanged flags (unbounded in the source, bounded here by `fuel`); any
other status goes through `raise_for_status()`. -/
def make_request (fuel : Nat) (attempt_auth rate_limit_buffer rate_limit_autobackoff : Bool)
    (s : ApiState) : Except Err ApiResponse × ApiState :=
  match fuel with
  | 0 => (.error .fuelExhausted, s)
  | fuel + 1 =>
    let s := backoff rate_limit_buffer rate_limit_autobackoff s
    match refresh_credentials s with
    | (.error e, s) => (.error e, s)
    | (.ok (), s) =>
      match s.apiResps with
      | [] => (.error .noResponse, s)
      | r :: rest =>
        let s := { s with apiResps := rest,
                          rate := RateLimitTracking.update s.rate r.headers s.now }
        if r.status == 401 && attempt_auth then
          match attempt_oauth s with
          | (.error e, s) => (.error e, s)
          | (.ok (), s) =>
            make_request fuel false rate_limit_buffer rate_limit_autobackoff s
        else if r.status == 429 && rate_limit_autobackoff then
          make_request fuel attempt_auth rate_limit_buffer rate_limit_autobackoff s
        else if 400 ≤ r.status ∧ r.status < 600 then
          (.error (.httpError r.status), s)
        else
          (.ok r, s)

/-! ## Properties of the string order used by `sorted(params)` -/

theorem lexLe_total : ∀ a b : List Char, lexLe a b = true ∨ lexLe b a = true
  | [], _ => by cases ‹List Char› <;> simp [lexLe]
  | _ :: _, [] => by simp [lexLe]
  | a :: as, b :: bs => by
    by_cases hab : a.toNat < b.toNat
    · left; simp [lexLe, hab]
    · by_cases hba : b.toNat < a.toNat
      · right; simp [lexLe, hba]
      · rcases lexLe_total as bs with h | h
        · left; simp [lexLe, hab, hba, h]
        · right; simp [lexLe, hba, hab, h]

theorem lexLe_antisymm : ∀ a b : List Char, lexLe a b = true → lexLe b a = true → a = b
  | [], [], _, _ => rfl
  | [], _ :: _, _, h => by simp [lexLe] at h
  | _ :: _, [], h, _ => by simp [lexLe] at h
  | a :: as, b :: bs, h1, h2 => by
    by_cases hab : a.toNat < b.toNat
    · simp [lexLe, hab, Nat.lt_asymm hab] at h2
    · by_cases hba : b.toNat < a.toNat
      · simp [lexLe, hab, hba] at h1
      · have hc : a = b :=
          Char.ext (UInt32.ext (Nat.le_antisymm (Nat.not_lt.mp hba) (Nat.not_lt.mp hab)))
        simp [lexLe, hab, hba] at h1 h2
        rw [hc, lexLe_antisymm as bs h1 h2]

theorem lexLe_trans : ∀ a b c : List Char,
    lexLe a b = true → lexLe b c = true → lexLe a c = true
  | [], _, _, _, _ => by simp [lexLe]
  | _ :: _, [], _, h, _ => by simp [lexLe] at h
  | _ :: _, _ :: _, [], _, h => by simp [lexLe] at h
  | a :: as, b :: bs, c :: cs, h1, h2 => by
    by_cases hab : a.toNat < b.toNat <;> by_cases hbc : b.toNat < c.toNat
    · simp [lexLe, Nat.lt_trans hab hbc]
    · have hcb : c.toNat ≤ b.toNat := Nat.not_lt.mp hbc
      by_cases hcb2 : c.toNat < b.toNat
      · simp [lexLe, hbc, hcb2] at h2
      · have : b.toNat = c.toNat := Nat.le_antisymm (Nat.not_lt.mp hcb2) hcb
        simp [lexLe, this ▸ hab]
    · have hba : b.toNat ≤ a.toNat := Nat.not_lt.mp hab
      by_cases hba2 : b.toNat < a.toNat
      · simp [lexLe, hab, hba2] at h1
      · have : a.toNat = b.toNat := Nat.le_antisymm (Nat.not_lt.mp hba2) hba
        simp [lexLe, this ▸ hbc]
    · have hba : b.toNat ≤ a.toNat := Nat.not_lt.mp hab
      have hcb : c.toNat ≤ b.toNat := Nat.not_lt.mp hbc
      by_cases hba2 : b.toNat < a.toNat
      · simp [lexLe, hab, hba2] at h1
      · by_cases hcb2 : c.toNat < b.toNat
        · simp [lexLe, hbc, hcb2] at h2
        · have hab2 : a.toNat = b.toNat := Nat.le_antisymm (Nat.not_lt.mp hba2) hba
          have hbc2 : b.toNat = c.toNat := Nat.le_antisymm (Nat.not_lt.mp hcb2) hcb
          simp [lexLe, hab, hba2, hbc, hcb2] at h1 h2
          simp [lexLe, hab2.trans hbc2, Nat.lt_irrefl]
          exact lexLe_trans as bs cs h1 h2

instance : IsTotal String strle :=
  ⟨fun a b => lexLe_total a.data b.data⟩

instance : IsTrans String strle :=
  ⟨fun a b c h1 h2 => lexLe_trans a.data b.data c.data h1 h2⟩

instance : IsAntisymm String strle :=
  ⟨fun a b h1 h2 => String.ext (lexLe_antisymm a.data b.data h1 h2)⟩

/-- Looking a key up in a duplicate-free association list is invariant under
permutation. -/
theorem lookup_eq_of_perm {d1 d2 : Dict} (h : List.Perm d1 d2)
    (nd : (d1.map Prod.fst).Nodup) (k : String) : d1.lookup k = d2.lookup k := by
  induction h with
  | nil => rfl
  | cons x _ ih =>
    simp only [List.map_cons, List.nodup_cons] at nd
    obtain ⟨x1, x2⟩ := x
    simp only [List.lookup_cons]
    cases hkx : k == x1
    · exact ih nd.2
    · rfl
  | swap x y l =>
    obtain ⟨x1, x2⟩ := x
    obtain ⟨y1, y2⟩ := y
    simp only [List.map_cons, List.nodup_cons, List.mem_cons] at nd
    have hxy : y1 ≠ x1 := fun h => nd.1 (Or.inl h)
    simp only [List.lookup_cons]
    cases hky : k == y1 <;> cases hkx : k == x1 <;> simp only
    exact absurd (((beq_iff_eq ..).mp hky).symm.trans ((beq_iff_eq ..).mp hkx)) hxy
  | trans h1 _ ih1 ih2 =>
    refine (ih1 nd).trans (ih2 ?_)
    exact ((h1.map Prod.fst).nodup_iff).mp nd

/-- Claim C6: for all params mappings containing the same key/value pairs in
any insertion order, the computed cache key (serialization of the params
sorted by key, joined with the host and path) is identical, so identical
logical queries map to the same storage location. -/
theorem cache_key_order_independent (cache_folder : String) (u : Url) (p1 p2 : Dict)
    (hperm : List.Perm p1 p2) (hnd : (p1.map Prod.fst).Nodup) :
    cacheKey cache_folder u (some p1) = cacheKey cache_folder u (some p2) := by
  have hkeys : List.Perm (p1.map Prod.fst) (p2.map Prod.fst) := hperm.map Prod.fst
  have hsorted : List.insertionSort strle (p1.map Prod.fst)
      = List.insertionSort strle (p2.map Prod.fst) := by
    refine List.eq_of_perm_of_sorted ?_ (List.sorted_insertionSort strle _)
      (List.sorted_insertionSort strle _)
    exact ((List.perm_insertionSort strle _).trans hkeys).trans
      (List.perm_insertionSort strle _).symm
  have hps : params_string (some p1) = params_string (some p2) := by
    simp only [params_string]
    rw [hsorted]
    exact congrArg _ (List.map_congr_left fun k _ => by
      rw [lookup_eq_of_perm hperm hnd k])
  unfold cacheKey
  rw [hps]

/-- Witness for C6: the two insertion orders of `{"foo": 971, "bar": 118}`
produce the same cache key. -/
theorem cache_key_order_independent_witness :
    cacheKey "cache" ⟨"www.strava.com", "/athlete/activities"⟩
        (some [("foo", .num 971), ("bar", .num 118)])
      = cacheKey "cache" ⟨"www.strava.com", "/athlete/activities"⟩
        (some [("bar", .num 118), ("foo", .num 971)]) :=
  cache_key_order_independent "cache" ⟨"www.strava.com", "/athlete/activities"⟩ _ _
    (List.Perm.swap ("bar", PV.num 118) ("foo", PV.num 971) [])
    (by decide)

/-! ## Claim C1: rate limiting -/

/-- The comparison `count >= nominal_limit * 0.8` over the rationals agrees
with the embedded integer comparison. -/
theorem buffer_le_iff (c n : Nat) :
    (n : ℚ) * MAX_RATE_LIMIT_USAGE ≤ (c : ℚ) ↔ 4 * n ≤ 5 * c := by
  unfold MAX_RATE_LIMIT_USAGE
  rw [show (n : ℚ) * (4 / 5) = (4 * (n : ℚ)) / 5 by ring,
    div_le_iff₀ (by norm_num : (0:ℚ) < 5)]
  rw [show ((c : ℚ)) * 5 = ((5 * c : ℕ) : ℚ) by push_cast; ring]
  rw [show (4 * (n : ℚ)) = ((4 * n : ℕ) : ℚ) by push_cast; ring]
  exact Nat.cast_le

/-- The single-window check agrees with its rational-arithmetic reading. -/
theorem is_limited_window_iff (c n r : Nat) (lb : Bool) (now : Nat) :
    RateLimitTracking.is_limited_window c n r lb now = true ↔
      ((n : ℚ) * (if lb then MAX_RATE_LIMIT_USAGE else 1) ≤ (c : ℚ) ∧ now < r) := by
  cases lb
  · simp [RateLimitTracking.is_limited_window, ge_iff_le, Nat.cast_le]
  · simp [RateLimitTracking.is_limited_window, ge_iff_le, buffer_le_iff]

/-- Claim C1: `is_limited(leave_buffer)` is true iff some window's used
count has reached `limit × 0.8` (buffer) or `limit × 1.0` (no buffer) and
the current time is still before that window's reset boundary; with
`short_count=12, short_limit=15` it is true with buffer and false without;
and before any snapshot is recorded it is always false. -/
theorem rate_limit_is_limited_spec :
    (∀ (snap : Snapshot) (lb : Bool) (now : Nat),
      RateLimitTracking.is_limited (some snap) lb now = true ↔
        (((snap.short_limit : ℚ) * (if lb then MAX_RATE_LIMIT_USAGE else 1) ≤ (snap.short_count : ℚ)
            ∧ now < RateLimitTracking.short_refresh_time (some snap))
         ∨ ((snap.daily_limit : ℚ) * (if lb then MAX_RATE_LIMIT_USAGE else 1) ≤ (snap.daily_count : ℚ)
            ∧ now < RateLimitTracking.daily_refresh_time (some snap))))
    ∧ (∀ (lb : Bool) (now : Nat), RateLimitTracking.is_limited none lb now = false)
    ∧ RateLimitTracking.is_limited (some ⟨0, 12, 0, 15, 1000⟩) true 100 = true
    ∧ RateLimitTracking.is_limited (some ⟨0, 12, 0, 15, 1000⟩) false 100 = false := by
  refine ⟨?_, fun _ _ => rfl, by decide, by decide⟩
  intro snap lb now
  simp only [RateLimitTracking.is_limited, Bool.or_eq_true]
  rw [is_limited_window_iff, is_limited_window_iff]

/-! ## Pagination lemmas -/

/-- `fetchPages` only ever appends to the request log it is given. -/
theorem fetchPages_log_extends (getter : Option Dict → HttpResponse) (params : Option Dict) :
    ∀ (fuel page : Nat) (acc : List J) (log : List (Option Dict)),
      ∃ ext, (fetchPages getter params fuel page acc log).2 = log ++ ext := by
  intro fuel
  induction fuel with
  | zero => exact fun page acc log => ⟨[], by simp [fetchPages]⟩
  | succ fuel ih =>
    intro page acc log
    simp only [fetchPages]
    split
    · exact ⟨[some (pageDict params page)], rfl⟩
    · split
      · exact ⟨[some (pageDict params page)], rfl⟩
      · split
        · exact ⟨[some (pageDict params page)], rfl⟩
        · next xs hxs =>
          split
          · exact ⟨[some (pageDict params page)], rfl⟩
          · obtain ⟨ext, hext⟩ :=
              ih (page + 1) (acc ++ xs) (log ++ [some (pageDict params page)])
            exact ⟨some (pageDict params page) :: ext, by rw [hext]; simp⟩

/-- The first request a `fetchPages` call issues (given fuel) carries the
page dict of its starting page. -/
theorem fetchPages_calls_head (getter : Option Dict → HttpResponse) (params : Option Dict)
    (fuel page : Nat) (acc : List J) (log : List (Option Dict)) :
    ∃ rest, (fetchPages getter params (fuel + 1) page acc log).2
      = log ++ some (pageDict params page) :: rest := by
  simp only [fetchPages]
  split
  · exact ⟨[], rfl⟩
  · split
    · exact ⟨[], rfl⟩
    · split
      · exact ⟨[], rfl⟩
      · next xs hxs =>
        split
        · exact ⟨[], rfl⟩
        · obtain ⟨ext, hext⟩ := fetchPages_log_extends getter params
            fuel (page + 1) (acc ++ xs) (log ++ [some (pageDict params page)])
          exact ⟨ext, by rw [hext]; simp⟩

/-- Running `fetchPages` across `k` successful, non-empty pages consumes `k`
fuel, appends those pages to the accumulator in order, and logs one request
per page with consecutive page numbers. -/
theorem fetchPages_prefix (getter : Option Dict → HttpResponse) (params : Option Dict)
    (ps : Nat → List J) :
    ∀ (k page fuel : Nat) (acc : List J) (log : List (Option Dict)),
      (∀ n, page ≤ n → n < page + k →
        getter (some (pageDict params n)) = ⟨200, some (.arr (ps n))⟩) →
      (∀ n, page ≤ n → n < page + k → ps n ≠ []) →
      fetchPages getter params (fuel + k) page acc log =
        fetchPages getter params fuel (page + k)
          (acc ++ ((List.range' page k).map ps).flatten)
          (log ++ (List.range' page k).map fun n => some (pageDict params n)) := by
  intro k
  induction k with
  | zero => intro page fuel acc log _ _; simp [List.range']
  | succ k ih =>
    intro page fuel acc log h1 h2
    have hg : getter (some (pageDict params page)) = ⟨200, some (.arr (ps page))⟩ :=
      h1 page le_rfl (by omega)
    have hne : ps page ≠ [] := h2 page le_rfl (by omega)
    have hfe : fuel + (k + 1) = (fuel + k) + 1 := by omega
    rw [hfe]
    rw [fetchPages, hg]
    have hrs : raise_for_status ⟨200, some (.arr (ps page))⟩ = .ok () := by
      simp [raise_for_status]
    rw [hrs]
    simp only [J.asArr]
    rw [if_neg (by simp [hne])]
    rw [ih (page + 1) fuel (acc ++ ps page) (log ++ [some (pageDict params page)])
      (fun n hn1 hn2 => h1 n (by omega) (by omega))
      (fun n hn1 hn2 => h2 n (by omega) (by omega))]
    have hrange : List.range' page (k + 1) = page :: List.range' (page + 1) k := rfl
    rw [hrange]
    simp [List.append_assoc]
    congr 1
    omega

/-- A full pagination run: pages `1 .. N-1` are non-empty, page `N` is
empty; the loop returns the concatenation of pages `1 .. N-1` in order and
issues exactly the requests for pages `1 .. N`. -/
theorem fetchPages_run (getter : Option Dict → HttpResponse) (params : Option Dict)
    (ps : Nat → List J) (N fuel : Nat)
    (h1 : ∀ n, 1 ≤ n → n ≤ N → getter (some (pageDict params n)) = ⟨200, some (.arr (ps n))⟩)
    (h2 : ∀ n, 1 ≤ n → n < N → ps n ≠ [])
    (h3 : ps N = [])
    (hN : 1 ≤ N) (hfuel : N ≤ fuel) :
    fetchPages getter params fuel 1 [] [] =
      (.ok ((List.range' 1 (N - 1)).map ps).flatten,
       (List.range' 1 N).map fun n => some (pageDict params n)) := by
  have hk : fuel = (fuel - N + 1) + (N - 1) := by omega
  rw [hk, fetchPages_prefix getter params ps (N - 1) 1 (fuel - N + 1) [] []
    (fun n hn1 hn2 => h1 n hn1 (by omega))
    (fun n hn1 hn2 => h2 n hn1 (by omega))]
  have h1N : 1 + (N - 1) = N := by omega
  rw [h1N]
  rw [show fuel - N + 1 = (fuel - N) + 1 by rfl]
  rw [fetchPages, h1 N hN le_rfl]
  have hrs : raise_for_status ⟨200, some (.arr (ps N))⟩ = .ok () := by
    simp [raise_for_status]
  rw [hrs]
  simp only [J.asArr]
  rw [if_pos (by simp [h3])]
  have hcat : List.range' 1 N = List.range' 1 (N - 1) ++ [N] := by
    have : N = (N - 1) + 1 := by omega
    rw [this, List.range'_concat]
    simp
    omega
  rw [hcat]
  simp

/-- Claim C2: on a paginated path with a cache miss, `caching_get` issues
requests with `page` starting at 1 and incremented by 1 at page size 200,
accumulating pages until an empty page, and returns the concatenation of
all pages in page order. -/
theorem caching_get_pagination_concat (getter : Option Dict → HttpResponse)
    (params : Option Dict) (ps : Nat → List J) (N : Nat) (force_refresh : Bool)
    (now fuel : Nat)
    (h1 : ∀ n, 1 ≤ n → n ≤ N → getter (some (pageDict params n)) = ⟨200, some (.arr (ps n))⟩)
    (h2 : ∀ n, 1 ≤ n → n < N → ps n ≠ [])
    (h3 : ps N = [])
    (hN : 1 ≤ N) (hfuel : N ≤ fuel) :
    caching_get getter params force_refresh true ⟨none, none⟩ now fuel =
      ⟨.ok (.arr ((List.range' 1 (N - 1)).map ps).flatten),
       ⟨some (.num now), some (.json (.arr ((List.range' 1 (N - 1)).map ps).flatten))⟩,
       (List.range' 1 N).map fun n => some (pageDict params n)⟩ := by
  have hrun := fetchPages_run getter params ps N fuel h1 h2 h3 hN hfuel
  simp [caching_get, readCreation, hrun]

/-- The page-1-has-200, page-2-has-50, page-3-empty stub of the spec's
pagination property. -/
def pageStubGetter : Option Dict → HttpResponse := fun d =>
  match d with
  | some pd =>
    match pd.lookup "page" with
    | some (.num 1) => ⟨200, some (.arr (List.replicate 200 (J.num 1)))⟩
    | some (.num 2) => ⟨200, some (.arr (List.replicate 50 (J.num 2)))⟩
    | _ => ⟨200, some (.arr [])⟩
  | none => ⟨200, some (.arr [])⟩

/-- The page contents served by `pageStubGetter`. -/
def pageStub : Nat → List J := fun n =>
  if n = 1 then List.replicate 200 (J.num 1)
  else if n = 2 then List.replicate 50 (J.num 2)
  else []

/-- Witness for C2: the stub returning 200 items on page 1, 50 on page 2
and 0 on page 3 yields exactly the 250 items in page order. -/
theorem caching_get_pagination_concat_witness :
    (caching_get pageStubGetter none false true ⟨none, none⟩ 77 3).result
      = .ok (.arr (List.replicate 200 (J.num 1) ++ List.replicate 50 (J.num 2))) := by
  have h := caching_get_pagination_concat pageStubGetter none pageStub 3 false 77 3
    (by intro n hn1 hn3
        interval_cases n <;> rfl)
    (by intro n hn1 hn3
        interval_cases n <;> simp [pageStub])
    rfl (by decide) (by decide)
  rw [h]
  rfl

/-! ## Claim C3: cache expiration -/

/-- Claim C3: with both cache files present beneath the computed key, a
well-formed entry whose age is within the 7-day window and
`force_refresh=False` is served from the cache with no network call; an
entry older than the window is treated as a miss and a refetch is issued
(so a fetch happens exactly in the stale case). -/
theorem caching_get_cache_expiration (getter : Option Dict → HttpResponse)
    (params : Option Dict) (pagination : Bool) (entry : CacheEntry)
    (now t fuel : Nat) (j : J)
    (hc : entry.creation = some (.num t)) (hj : entry.content = some (.json j)) :
    (¬ (t + CACHE_EXPIRATION_TIME < now) →
      caching_get getter params false pagination entry now fuel = ⟨.ok j, entry, []⟩)
    ∧ (t + CACHE_EXPIRATION_TIME < now → 0 < fuel →
      (caching_get getter params false pagination entry now fuel).calls ≠ []) := by
  obtain ⟨creation, content⟩ := entry
  simp only [CacheEntry.mk.injEq] at hc hj
  cases hc
  cases hj
  constructor
  · intro hfresh
    simp [caching_get, readCreation, hfresh]
  · intro hstale hfuel
    simp only [caching_get, readCreation]
    rw [if_neg (by simp [hstale])]
    cases pagination
    · simp only [Bool.false_eq_true, if_false]
      cases hrs : raise_for_status (getter params) with
      | error e => simp [hrs]
      | ok u => cases hb : (getter params).body <;> simp [hrs, hb]
    · simp only [if_true]
      obtain ⟨fl, hfl⟩ : ∃ fl, fuel = fl + 1 := ⟨fuel - 1, by omega⟩
      subst hfl
      obtain ⟨rest, hrest⟩ := fetchPages_calls_head getter params fl 1 [] []
      cases hfp : fetchPages getter params (fl + 1) 1 [] [] with
      | mk res log =>
        rw [hfp] at hrest
        simp at hrest
        cases res <;> simp [hrest]

/-- Witness for C3: a 100-second-old entry is served from the cache with no
call; the same entry is refetched once it is over 7 days old. -/
theorem caching_get_cache_expiration_witness :
    (caching_get (fun _ => ⟨200, some (.num 9)⟩) none false false
        ⟨some (.num 100), some (.json (.num 7))⟩ 200 5 = ⟨.ok (.num 7),
          ⟨some (.num 100), some (.json (.num 7))⟩, []⟩)
    ∧ (caching_get (fun _ => ⟨200, some (.num 9)⟩) none false false
        ⟨some (.num 100), some (.json (.num 7))⟩ (CACHE_EXPIRATION_TIME + 101) 5).calls ≠ [] :=
  ⟨(caching_get_cache_expiration (fun _ => ⟨200, some (.num 9)⟩) none false
      ⟨some (.num 100), some (.json (.num 7))⟩ 200 100 5 (.num 7) rfl rfl).1 (by decide),
   (caching_get_cache_expiration (fun _ => ⟨200, some (.num 9)⟩) none false
      ⟨some (.num 100), some (.json (.num 7))⟩ (CACHE_EXPIRATION_TIME + 101) 100 5 (.num 7)
      rfl rfl).2 (by decide) (by decide)⟩

/-! ## Claim C9: no cache write on fetch failure -/

/-- Claim C9: if a fetch during the fetching phase fails, the failure
propagates to the caller and the cache entry at the computed key is left
exactly as it was (no incomplete page results are persisted): first, any
erroring `caching_get` leaves the entry unchanged; second, a paginated run
whose pages `1 .. m-1` succeed and whose page `m` returns an HTTP error
status propagates `HTTPError` and does not touch the entry. -/
theorem caching_get_no_write_on_error :
    (∀ getter params force_refresh pagination entry now fuel e,
      (caching_get getter params force_refresh pagination entry now fuel).result = .error e →
      (caching_get getter params force_refresh pagination entry now fuel).entry = entry)
    ∧ (∀ (getter : Option Dict → HttpResponse) (params : Option Dict) (ps : Nat → List J)
        (m now fuel s : Nat) (b : Option J) (entry : CacheEntry),
      entry.creation = none →
      (∀ n, 1 ≤ n → n < m → getter (some (pageDict params n)) = ⟨200, some (.arr (ps n))⟩) →
      (∀ n, 1 ≤ n → n < m → ps n ≠ []) →
      getter (some (pageDict params m)) = ⟨s, b⟩ →
      400 ≤ s → s < 600 → 1 ≤ m → m ≤ fuel →
      (caching_get getter params false true entry now fuel).result = .error (.httpError s)
      ∧ (caching_get getter params false true entry now fuel).entry = entry) := by
  constructor
  · intro getter params force_refresh pagination entry now fuel e herr
    revert herr
    simp only [caching_get]
    split
    · intro _; rfl
    · split
      · split
        · intro h; exact absurd h (by simp)
        · intro _; rfl
        · intro _; rfl
      · split
        · intro _; rfl
        · intro h; exact absurd h (by simp)
  · intro getter params ps m now fuel s b entry hcreation h1 h2 hfail hs400 hs600 hm hfuel
    have hfetch : fetchPages getter params fuel 1 [] [] =
        (.error (.httpError s),
         (List.range' 1 m).map fun n => some (pageDict params n)) := by
      have hk : fuel = (fuel - m + 1) + (m - 1) := by omega
      rw [hk, fetchPages_prefix getter params ps (m - 1) 1 (fuel - m + 1) [] []
        (fun n hn1 hn2 => h1 n hn1 (by omega))
        (fun n hn1 hn2 => h2 n hn1 (by omega))]
      have h1m : 1 + (m - 1) = m := by omega
      rw [h1m]
      rw [show fuel - m + 1 = (fuel - m) + 1 by rfl]
      rw [fetchPages, hfail]
      have hrs : raise_for_status ⟨s, b⟩ = .error (.httpError s) := by
        simp [raise_for_status, hs400, hs600]
      rw [hrs]
      have hcat : List.range' 1 m = List.range' 1 (m - 1) ++ [m] := by
        have hm2 : m = (m - 1) + 1 := by omega
        rw [hm2, List.range'_concat]
        simp
        omega
      rw [hcat]
      simp
    obtain ⟨creation, content⟩ := entry
    simp only [CacheEntry.mk.injEq] at hcreation
    cases hcreation
    simp [caching_get, readCreation, hfetch]

/-- Witness for C9: page 1 succeeds with one element, page 2 answers 500;
the error propagates and a stale-free missing entry stays missing. -/
theorem caching_get_no_write_on_error_witness :
    (caching_get
        (fun d =>
          match d with
          | some pd =>
            match pd.lookup "page" with
            | some (.num 1) => ⟨200, some (.arr [.num 4])⟩
            | _ => ⟨500, none⟩
          | none => ⟨500, none⟩)
        none false true ⟨none, none⟩ 33 6).result = .error (.httpError 500)
    ∧ (caching_get
        (fun d =>
          match d with
          | some pd =>
            match pd.lookup "page" with
            | some (.num 1) => ⟨200, some (.arr [.num 4])⟩
            | _ => ⟨500, none⟩
          | none => ⟨500, none⟩)
        none false true ⟨none, none⟩ 33 6).entry = ⟨none, none⟩ :=
  caching_get_no_write_on_error.2
    (fun d =>
      match d with
      | some pd =>
        match pd.lookup "page" with
        | some (.num 1) => ⟨200, some (.arr [.num 4])⟩
        | _ => ⟨500, none⟩
      | none => ⟨500, none⟩)
    none (fun n => if n = 1 then [.num 4] else []) 2 33 6 500 none ⟨none, none⟩
    rfl
    (by intro n hn1 hn2; interval_cases n; rfl)
    (by intro n hn1 hn2; interval_cases n; simp)
    rfl (by decide) (by decide) (by decide) (by decide)

/-! ## Claim C10: page/per_page override caller params -/

/-- Key lookup distributes over list append. -/
theorem lookup_append (l1 l2 : Dict) (k : String) :
    (l1 ++ l2).lookup k =
      match l1.lookup k with
      | some v => some v
      | none => l2.lookup k := by
  induction l1 with
  | nil => simp
  | cons kv t ih =>
    obtain ⟨k1, v1⟩ := kv
    simp only [List.cons_append, List.lookup_cons]
    cases k == k1 <;> simp [ih]

/-- Key lookup after rewriting every value in place. -/
theorem lookup_map_values (d : Dict) (g : String → PV → PV) (k : String) :
    ((d.map fun kv => (kv.1, g kv.1 kv.2)).lookup k) = (d.lookup k).map (g k) := by
  induction d with
  | nil => simp
  | cons kv t ih =>
    obtain ⟨k1, v1⟩ := kv
    simp only [List.map_cons, List.lookup_cons]
    cases hk : k == k1
    · simp [ih]
    · have : k = k1 := (beq_iff_eq ..).mp hk
      subst this
      simp

/-- Key lookup in a list filtered by a predicate on keys alone. -/
theorem lookup_filter_keys (d : Dict) (p : String → Bool) (k : String) :
    ((d.filter fun kv => p kv.1).lookup k) = if p k then d.lookup k else none := by
  induction d with
  | nil => simp
  | cons kv t ih =>
    obtain ⟨k1, v1⟩ := kv
    by_cases hp : p k1
    · rw [List.filter_cons_of_pos (by simpa using hp)]
      simp only [List.lookup_cons]
      cases hk : k == k1
      · simp [ih]
      · have : k = k1 := (beq_iff_eq ..).mp hk
        subst this
        simp [hp]
    · rw [List.filter_cons_of_neg (by simpa using hp)]
      simp only [List.lookup_cons]
      cases hk : k == k1
      · simp [ih]
      · have : k = k1 := (beq_iff_eq ..).mp hk
        subst this
        simp [hp, ih]

/-- Python dict union, observed through lookup: the right operand wins. -/
theorem dictUnion_lookup (d1 d2 : Dict) (k : String) :
    (dictUnion d1 d2).lookup k =
      match d2.lookup k with
      | some v => some v
      | none => d1.lookup k := by
  unfold dictUnion
  rw [lookup_append]
  rw [lookup_map_values d1 (fun k1 v1 => (d2.lookup k1).getD v1) k]
  rw [lookup_filter_keys d2 (fun k1 => (d1.lookup k1).isNone) k]
  cases h1 : d1.lookup k <;> cases h2 : d2.lookup k <;> simp [h1, h2]

/-- Claim C10: the params sent on the `n`-th page request are exactly the
caller's params with `page` bound to `n` and `per_page` bound to 200,
silently overriding any caller-supplied values for those two keys; and the
request a pagination step issues carries exactly that dict. -/
theorem pagination_params_override :
    (∀ (params : Option Dict) (page : Nat) (k : String),
      (pageDict params page).lookup k =
        if k = "page" then some (.num (page : Int))
        else if k = "per_page" then some (.num 200)
        else (params.getD []).lookup k)
    ∧ (∀ getter params fuel page acc log, ∃ rest,
      (fetchPages getter params (fuel + 1) page acc log).2
        = log ++ some (pageDict params page) :: rest) := by
  constructor
  · intro params page k
    unfold pageDict
    rw [dictUnion_lookup]
    by_cases hp : k = "page"
    · subst hp
      simp [List.lookup_cons]
    · by_cases hpp : k = "per_page"
      · subst hpp
        simp [List.lookup_cons, RESPONSES_PER_PAGE]
      · rw [if_neg hp, if_neg hpp]
        have hbp : (k == "page") = false := by simpa using hp
        have hbpp : (k == "per_page") = false := by simpa using hpp
        simp [List.lookup_cons, hbp, hbpp]
  · exact fun getter params fuel page acc log =>
      fetchPages_calls_head getter params fuel page acc log

/-! ## Claim C7: malformed and partially-written cache entries -/

/-- Counterexample to C7 as stated: with both files present, a fresh
creation time and invalid JSON in the content file, `caching_get` raises
the parse error to the caller and performs no refetch, instead of treating
the entry as a miss. -/
theorem cache_malformed_entry_counterexample :
    (caching_get (fun _ => ⟨200, some (.arr [])⟩) none false false
        ⟨some (.num 0), some .malformed⟩ 100 5).result = .error .parseError
    ∧ (caching_get (fun _ => ⟨200, some (.arr [])⟩) none false false
        ⟨some (.num 0), some .malformed⟩ 100 5).calls = [] :=
  ⟨rfl, rfl⟩

/-- Amended C7: a partially-written entry (exactly one of the two files
present, any present creation-time file being well-formed) is treated as a
cache miss — the refetch happens and no error propagates.  Malformed file
contents are not recovered, however: a non-numeric creation-time file, or
invalid JSON in the content file of an otherwise fresh hit, raises a parse
error to the caller. -/
theorem cache_partial_entry_miss (getter : Option Dict → HttpResponse)
    (params : Option Dict) (now fuel : Nat) (j : J)
    (hresp : getter params = ⟨200, some j⟩) :
    (∀ t, caching_get getter params false false ⟨some (.num t), none⟩ now fuel
        = ⟨.ok j, ⟨some (.num now), some (.json j)⟩, [params]⟩)
    ∧ (∀ content, caching_get getter params false false ⟨none, content⟩ now fuel
        = ⟨.ok j, ⟨some (.num now), some (.json j)⟩, [params]⟩)
    ∧ (∀ content, (caching_get getter params false false ⟨some .malformed, content⟩
        now fuel).result = .error .parseError)
    ∧ (∀ t, ¬ (t + CACHE_EXPIRATION_TIME < now) →
        (caching_get getter params false false ⟨some (.num t), some .malformed⟩
          now fuel).result = .error .parseError) := by
  refine ⟨?_, ?_, ?_, ?_⟩
  · intro t
    simp [caching_get, readCreation, hresp, raise_for_status]
  · intro content
    simp [caching_get, readCreation, hresp, raise_for_status]
  · intro content
    simp [caching_get, readCreation]
  · intro t hfresh
    simp [caching_get, readCreation, hfresh]

/-- Witness for the amended C7: a creation-time file with no content file
is refetched cleanly; a malformed creation-time file raises. -/
theorem cache_partial_entry_miss_witness :
    (caching_get (fun _ => ⟨200, some (.num 3)⟩) none false false
        ⟨some (.num 8), none⟩ 9 4
      = ⟨.ok (.num 3), ⟨some (.num 9), some (.json (.num 3))⟩, [none]⟩)
    ∧ ((caching_get (fun _ => ⟨200, some (.num 3)⟩) none false false
        ⟨some .malformed, none⟩ 9 4).result = .error .parseError) :=
  ⟨(cache_partial_entry_miss (fun _ => ⟨200, some (.num 3)⟩) none 9 4 (.num 3) rfl).1 8,
   (cache_partial_entry_miss (fun _ => ⟨200, some (.num 3)⟩) none 9 4 (.num 3) rfl).2.2.1 none⟩

/-! ## Claim C8: unknown paths fail fast -/

/-- Claim C8: a path that matches no pattern in the catalog (matching
substitutes each placeholder segment with a wildcard; the first matching
pattern in iteration order is used) makes `query` fail with the
invalid-path error before issuing any network fetch or touching the cache. -/
theorem query_invalid_path_fails_fast (catalog : Catalog) (getter : Option Dict → HttpResponse)
    (path : String) (params : Option Dict) (force_refresh : Bool) (entry : CacheEntry)
    (now fuel : Nat)
    (hnone : ∀ pat ∈ catalog, path_matches pat.1 path = false) :
    query catalog getter path params force_refresh entry now fuel
      = ⟨.error .invalidPath, entry, []⟩ := by
  unfold query get_data_for_path
  rw [List.find?_eq_none.mpr (by intro x hx; simp [hnone x hx])]

/-- Witness for C8: a catalog containing `/athlete` and
`/activities/{id}` rejects `/bogus` without any call or cache change. -/
theorem query_invalid_path_fails_fast_witness :
    query [("/athlete", false), ("/activities/{id}", true)]
        (fun _ => ⟨200, some (.arr [])⟩) "/bogus" none false ⟨none, none⟩ 5 5
      = ⟨.error .invalidPath, ⟨none, none⟩, []⟩ :=
  query_invalid_path_fails_fast _ _ _ _ _ _ _ _ (by decide)

/-! ## Claims C4 and C5: authorization -/

theorem handle_token_response_oauthCount (s : ApiState) (r : TokenResp) :
    ((handle_token_response s r).2).oauthCount = s.oauthCount := by
  unfold handle_token_response
  split
  · rfl
  · split <;> rfl

theorem backoff_oauthCount (lb ab : Bool) (s : ApiState) :
    (backoff lb ab s).oauthCount = s.oauthCount := by
  unfold backoff
  split <;> rfl

theorem refresh_credentials_oauthCount (s : ApiState) :
    ((refresh_credentials s).2).oauthCount = s.oauthCount := by
  by_cases hexp : s.creds.expiration_time < s.now
  · cases hr : s.tokenResps with
    | nil =>
      simp [refresh_credentials, hexp, hr]
    | cons r rest =>
      simp only [refresh_credentials, hexp, hr, if_true]
      have h3 := handle_token_response_oauthCount
        { s with tokenResps := rest, exchangeCount := s.exchangeCount + 1 } r
      split
      · next e s4 heq =>
        rw [heq] at h3
        simpa using h3
      · next s4 heq =>
        rw [heq] at h3
        simp at h3
        split <;> simpa using h3
  · simp only [refresh_credentials, hexp, if_false]
    split <;> rfl

theorem attempt_oauth_oauthCount (s : ApiState) :
    ((attempt_oauth s).2).oauthCount ≤ s.oauthCount + 1 := by
  cases hf : s.oauthFlows with
  | nil => simp [attempt_oauth, hf]
  | cons flow rest =>
    cases flow with
    | err => simp [attempt_oauth, hf]
    | ok code =>
      simp only [attempt_oauth, hf]
      cases ht : s.tokenResps with
      | nil => simp
      | cons r trest =>
        have h3 := handle_token_response_oauthCount
          { s with oauthFlows := rest, oauthCount := s.oauthCount + 1,
                   tokenResps := trest, exchangeCount := s.exchangeCount + 1 } r
        simp at h3
        simp [h3]

/-- Across any `make_request` call tree the browser scope-expansion flow
runs at most once when `attempt_auth` is set and never otherwise. -/
theorem make_request_oauth_bound :
    ∀ (fuel : Nat) (aa lb ab : Bool) (s : ApiState),
      (make_request fuel aa lb ab s).2.oauthCount
        ≤ s.oauthCount + (if aa then 1 else 0) := by
  intro fuel
  induction fuel with
  | zero =>
    intro aa lb ab s
    simp [make_request]
  | succ fuel ih =>
    intro aa lb ab s
    simp only [make_request]
    cases hrc : refresh_credentials (backoff lb ab s) with
    | mk res s2 =>
      have hc2 : s2.oauthCount = s.oauthCount := by
        have h3 := refresh_credentials_oauthCount (backoff lb ab s)
        rw [hrc] at h3
        simpa [backoff_oauthCount] using h3
      cases res with
      | error e =>
        dsimp only
        simpa using Nat.le_add_right_of_le hc2.le
      | ok u =>
        cases u
        dsimp only
        cases hapi : s2.apiResps with
        | nil =>
          dsimp only
          simpa using Nat.le_add_right_of_le hc2.le
        | cons r rest =>
          dsimp only
          by_cases h401 : (r.status == 401 && aa) = true
          · rw [if_pos h401]
            have haa : aa = true := by
              have h401b := h401
              simp at h401b
              exact h401b.2
            cases hao : attempt_oauth
                { s2 with apiResps := rest,
                          rate := RateLimitTracking.update s2.rate r.headers s2.now } with
            | mk res2 s4 =>
              have hb : s4.oauthCount ≤ s.oauthCount + 1 := by
                have h5 := attempt_oauth_oauthCount
                  { s2 with apiResps := rest,
                            rate := RateLimitTracking.update s2.rate r.headers s2.now }
                rw [hao] at h5
                simpa [hc2] using h5
              cases res2 with
              | error e =>
                dsimp only
                simpa [haa] using hb
              | ok u2 =>
                cases u2
                dsimp only
                have h6 := ih false lb ab s4
                simp at h6
                simpa [haa] using h6.trans hb
          · rw [if_neg h401]
            by_cases h429 : (r.status == 429 && ab) = true
            · rw [if_pos h429]
              have h6 := ih aa lb ab
                { s2 with apiResps := rest,
                          rate := RateLimitTracking.update s2.rate r.headers s2.now }
              simpa [hc2] using h6
            · rw [if_neg h429]
              split <;> simpa using Nat.le_add_right_of_le hc2.le

/-- Claim C4: a 401 on a request with `attempt_auth` triggers the
scope-expansion flow and exactly one retry of the same call with
`attempt_auth=False`; a second 401 fails the request with the 401 error
(the spec's `AuthError`) instead of retrying again, and in every case at
most one automatic scope expansion happens per originating request. -/
theorem make_request_single_retry_after_401
    (s : ApiState) (r1 r2 : ApiResponse) (rest : List ApiResponse) (lb : Bool) (fuel : Nat)
    (tb : TokenBody) (tr : List TokenResp) (code : String) (fl : List OauthResult)
    (hapi : s.apiResps = r1 :: r2 :: rest)
    (h401 : r1.status = 401)
    (hflow : s.oauthFlows = .ok code :: fl)
    (htok : s.tokenResps = ⟨200, some tb⟩ :: tr)
    (hvalid : s.now ≤ s.creds.expiration_time)
    (hacc : s.creds.access_token.isSome = true)
    (hvalid2 : s.now ≤ tb.expires_at) :
    (∀ aa ab fuel2, (make_request fuel2 aa lb ab s).2.oauthCount
        ≤ s.oauthCount + (if aa then 1 else 0))
    ∧ (r2.status = 401 →
        (make_request (fuel + 2) true lb false s).1 = .error (.httpError 401)
        ∧ (make_request (fuel + 2) true lb false s).2.oauthCount = s.oauthCount + 1
        ∧ (make_request (fuel + 2) true lb false s).2.apiResps = rest)
    ∧ (r2.status < 400 →
        (make_request (fuel + 2) true lb false s).1 = .ok r2
        ∧ (make_request (fuel + 2) true lb false s).2.oauthCount = s.oauthCount + 1
        ∧ (make_request (fuel + 2) true lb false s).2.apiResps = rest) := by
  have hnlt1 : ¬ s.creds.expiration_time < s.now := Nat.not_lt.mpr hvalid
  have hnlt2 : ¬ tb.expires_at < s.now := Nat.not_lt.mpr hvalid2
  refine ⟨fun aa ab fuel2 => make_request_oauth_bound fuel2 aa lb ab s, ?_, ?_⟩
  · intro h2
    refine ⟨?_, ?_, ?_⟩ <;>
      simp [make_request, backoff, refresh_credentials, attempt_oauth,
        handle_token_response, hapi, h401, hflow, htok, hnlt1, hnlt2, hacc, h2]
  · intro h2
    have hne401 : (r2.status == 401) = false := by
      simp
      omega
    have hne429 : (r2.status == 429) = false := by
      simp
      omega
    have hnr : ¬ (400 ≤ r2.status ∧ r2.status < 600) := by omega
    refine ⟨?_, ?_, ?_⟩ <;>
      simp [make_request, backoff, refresh_credentials, attempt_oauth,
        handle_token_response, hapi, h401, hflow, htok, hnlt1, hnlt2, hacc,
        hne401, hne429, hnr]

/-- A state about to see two 401 responses with a working scope-expansion
flow behind it. -/
def retryState : ApiState :=
  { creds := ⟨"r0", some "a0", 1000⟩
    file := none
    rate := none
    now := 500
    tokenResps := [⟨200, some ⟨2000, "a1", "r1"⟩⟩]
    apiResps := [⟨401, none, none⟩, ⟨401, none, none⟩]
    oauthFlows := [.ok "c"]
    exchangeCount := 0
    oauthCount := 0 }

/-- Witness for C4: two consecutive 401s end in the 401 error after exactly
one scope expansion. -/
theorem make_request_single_retry_after_401_witness :
    (make_request 2 true true false retryState).1 = .error (.httpError 401)
    ∧ (make_request 2 true true false retryState).2.oauthCount = 1 :=
  let h := (make_request_single_retry_after_401 retryState ⟨401, none, none⟩
      ⟨401, none, none⟩ [] true 0 ⟨2000, "a1", "r1"⟩ [] "c" [] rfl rfl rfl rfl
      (by decide) rfl (by decide)).2.1 rfl
  ⟨h.1, h.2.1⟩

/-- Claim C5: `__refresh_credentials` performs the refresh-token exchange
call iff the stored expiration time has passed or is the unset sentinel 0;
a non-success status or malformed body of the exchange fails the call;
a successful exchange updates access token, refresh token and expiration
from the response and overwrites the persisted secrets file with the full
credential set; and on success `access_token` is set. -/
theorem refresh_credentials_spec (s : ApiState) (r : TokenResp) (rest : List TokenResp)
    (hr : s.tokenResps = r :: rest) (hnow : 0 < s.now) :
    ((refresh_credentials s).2.exchangeCount ≠ s.exchangeCount ↔
      (s.creds.expiration_time < s.now ∨ s.creds.expiration_time = 0))
    ∧ (s.creds.expiration_time < s.now →
        ((400 ≤ r.status ∧ r.status < 600) ∨ r.body = none) →
        ∃ e, (refresh_credentials s).1 = .error e)
    ∧ (∀ b : TokenBody, s.creds.expiration_time < s.now → r.body = some b →
        ¬ (400 ≤ r.status ∧ r.status < 600) →
        (refresh_credentials s).1 = .ok ()
        ∧ (refresh_credentials s).2.creds
            = ⟨b.refresh_token, some b.access_token, b.expires_at⟩
        ∧ (refresh_credentials s).2.file
            = some ⟨b.refresh_token, b.access_token, b.expires_at⟩)
    ∧ ((refresh_credentials s).1 = .ok () →
        (refresh_credentials s).2.creds.access_token.isSome = true) := by
  by_cases hexp : s.creds.expiration_time < s.now
  · by_cases hst : 400 ≤ r.status ∧ r.status < 600
    · refine ⟨?_, fun _ _ => ⟨.httpError r.status, ?_⟩, fun b _ hb hst2 => absurd hst hst2, ?_⟩
      · simp [refresh_credentials, handle_token_response, hr, hexp, hst]
      · simp [refresh_credentials, handle_token_response, hr, hexp, hst]
      · simp [refresh_credentials, handle_token_response, hr, hexp, hst]
    · cases hb : r.body with
      | none =>
        refine ⟨?_, fun _ _ => ⟨.parseError, ?_⟩, fun b _ hb2 _ => by simp [hb] at hb2, ?_⟩
        · simp [refresh_credentials, handle_token_response, hr, hexp, hst, hb]
        · simp [refresh_credentials, handle_token_response, hr, hexp, hst, hb]
        · simp [refresh_credentials, handle_token_response, hr, hexp, hst, hb]
      | some b =>
        refine ⟨?_, fun _ hbad => ?_, fun b2 _ hb2 _ => ?_, ?_⟩
        · simp [refresh_credentials, handle_token_response, hr, hexp, hst, hb]
        · rcases hbad with hbad | hbad
          · exact absurd hbad hst
          · simp at hbad
        · have hbb : b2 = b := (Option.some_inj.mp hb2).symm
          subst hbb
          refine ⟨?_, ?_, ?_⟩ <;>
            simp [refresh_credentials, handle_token_response, hr, hexp, hst, hb]
        · intro _
          simp [refresh_credentials, handle_token_response, hr, hexp, hst, hb]
  · have hz : ¬ (s.creds.expiration_time < s.now ∨ s.creds.expiration_time = 0) := by
      rintro (h | h)
      · exact hexp h
      · exact hexp (by omega)
    refine ⟨?_, fun h _ => absurd h hexp, fun b h _ _ => absurd h hexp, ?_⟩
    · simp only [refresh_credentials, hexp, if_false]
      constructor
      · intro hcount
        exfalso
        apply hcount
        split <;> rfl
      · intro h
        rcases h with h | h
        · exact h.elim
        · exact absurd (show s.creds.expiration_time < s.now by omega) hexp
    · simp only [refresh_credentials, hexp, if_false]
      split <;> rename_i hsome
      · intro _
        simpa using hsome
      · intro h
        cases h

/-- A freshly-loaded state whose expiration sentinel forces an exchange. -/
def staleState : ApiState :=
  { creds := ⟨"r0", none, 0⟩
    file := none
    rate := none
    now := 500
    tokenResps := [⟨200, some ⟨2000, "a1", "r1"⟩⟩]
    apiResps := []
    oauthFlows := []
    exchangeCount := 0
    oauthCount := 0 }

/-- Witness for C5: the expired sentinel state performs the exchange,
stores all three fields, and rewrites the whole secrets file. -/
theorem refresh_credentials_spec_witness :
    (refresh_credentials staleState).1 = .ok ()
    ∧ (refresh_credentials staleState).2.creds = ⟨"r1", some "a1", 2000⟩
    ∧ (refresh_credentials staleState).2.file = some ⟨"r1", "a1", 2000⟩ :=
  (refresh_credentials_spec staleState ⟨200, some ⟨2000, "a1", "r1"⟩⟩ [] rfl
    (by decide)).2.2.1 ⟨2000, "a1", "r1"⟩ (by decide) rfl (by decide)

end Strava
